import Mathlib

/-!
Shallow embedding of the pro-football-reference web scraper's core logic
(`generic_game_log.py`, `eligible_players.py`) and proofs about it.

Python strings are modelled as Lean `String` (with helpers over `List Char`),
Python `int` as `Int`, Python `float` as `Rat` (exact decimal arithmetic),
Python exceptions as `Option`/`Except` (`none` / `.error` means the call
raises).  HTML is abstracted to the structure the code actually queries:
a table row is the list of its `td` cells, each carrying its `data-stat`
attribute and its text; a player-index entry carries its free text and the
embedded link target.
-/

namespace PFR

/-- Python `str.split(sep)` for a single-character separator: splits on every
occurrence, keeping empty segments, and returns `[""]` on the empty string. -/
def splitOnChar (sep : Char) : List Char → List (List Char)
  | [] => [[]]
  | c :: cs =>
    let rest := splitOnChar sep cs
    if c = sep then [] :: rest
    else
      match rest with
      | [] => [[c]]
      | t :: ts => (c :: t) :: ts

/-- Python substring containment, the `in` operator on strings. -/
def containsSub (pat : List Char) : List Char → Bool
  | [] => pat.isEmpty
  | c :: cs => pat.isPrefixOf (c :: cs) || containsSub pat cs

/-- Python `str.replace(c, '')` for a single-character pattern: removing every
occurrence of one character is exactly filtering it out. -/
def removeChar (c : Char) (s : List Char) : List Char :=
  s.filter (fun d => d ≠ c)

/-- Python `str.replace('.htm', '')`: scan left to right; whenever the next
four characters are `.htm` drop them and continue after the occurrence,
otherwise emit one character and move on.  A tail shorter than the pattern
cannot hold an occurrence and is emitted unchanged. -/
def removeHtm : List Char → List Char
  | a :: b :: c :: d :: rest =>
    if a == '.' && b == 'h' && c == 't' && d == 'm' then removeHtm rest
    else a :: removeHtm (b :: c :: d :: rest)
  | s => s

/-- Value of an unsigned decimal digit string; `none` when empty or when any
character is not a digit (Python `int()` raises `ValueError` there). -/
def digitsVal (cs : List Char) : Option Nat :=
  if cs.isEmpty then none
  else
    cs.foldl
      (fun acc c =>
        acc.bind (fun n => if c.isDigit then some (n * 10 + (c.toNat - 48)) else none))
      (some 0)

/-- Python `int(s)` on the forms the scraper meets: an optional sign followed
by decimal digits; `none` models the `ValueError` raised otherwise. -/
def pyInt? : List Char → Option Int
  | '-' :: rest => (digitsVal rest).map (fun n => -(n : Int))
  | '+' :: rest => (digitsVal rest).map (fun n => (n : Int))
  | cs => (digitsVal cs).map (fun n => (n : Int))

/-- Decimal value `ip.fp` as an exact rational; at least one part must be
non-empty (Python accepts `"62."` and `".5"` but not `"."`). -/
def decVal (ip fp : List Char) : Option Rat := do
  if ip.isEmpty ∧ fp.isEmpty then none
  else
    let ipv ← if ip.isEmpty then some 0 else digitsVal ip
    let fpv ← if fp.isEmpty then some 0 else digitsVal fp
    pure ((ipv : Rat) + (fpv : Rat) / ((10 : Rat) ^ fp.length))

/-- Python `float(s)` on the decimal forms the scraper meets (optional sign,
digits, optional fractional part), modelled exactly over `Rat`; `none`
models the `ValueError` raised otherwise. -/
def pyFloat? (cs : List Char) : Option Rat :=
  let body : List Char → Option Rat := fun body =>
    match splitOnChar '.' body with
    | [ip] => decVal ip []
    | [ip, fp] => decVal ip fp
    | _ => none
  match cs with
  | '-' :: rest => (body rest).map (fun q => -q)
  | '+' :: rest => body rest
  | _ => body cs

/-- Effectful map over a list in the `Option` monad, left to right, stopping
at the first failure — the shape of every `for` loop of the scraper whose
body may raise. -/
def listMapM (f : α → Option β) : List α → Option (List β)
  | [] => some []
  | a :: l => do
    let b ← f a
    let bs ← listMapM f l
    pure (b :: bs)

/-- Python `sep in s` at `String` level: `pat` occurs as a substring of `s`. -/
def pyContains (s pat : String) : Bool := containsSub pat.data s.data

/-- Python `s.split(sep)` at `String` level. -/
def pySplit (s : String) (sep : Char) : List String :=
  (splitOnChar sep s.data).map String.mk

/-- Python `int(s)` at `String` level. -/
def pyIntS? (s : String) : Option Int := pyInt? s.data

/-- Python `float(s)` at `String` level. -/
def pyFloatS? (s : String) : Option Rat := pyFloat? s.data

/-- A typed cell value of an output record: Python `int`, `float` (modelled
as `Rat`) or `str`. -/
inductive Value where
  | vInt : Int → Value
  | vRat : Rat → Value
  | vStr : String → Value
deriving DecidableEq, Repr

/-- One `td` cell of an HTML table row: its `data-stat` attribute and text. -/
structure Cell where
  stat : String
  text : String
deriving DecidableEq, Repr

/-- A table row is the list of its `td` cells in document order. -/
abbrev Row := List Cell

/-- `row.find('td', data-stat = tag)`: first cell carrying the attribute. -/
def findStat (row : Row) (tag : String) : Option Cell :=
  row.find? (fun c => c.stat == tag)

/-- One line of the field-mapping configuration (`ELEMENT_TABLE` columns
`pfr`, `app`, `data_type`). -/
structure MapEntry where
  pfr : String
  app : String
  data_type : String
deriving DecidableEq, Repr

/-- `VALID_POSITIONS` from `generic_game_log.py`. -/
def VALID_POSITIONS : List String := ["QB", "RB", "FB", "WR", "TE", "K"]

/-- `VALID_STATS` from `eligible_players.py`. -/
def VALID_STATS : List String := ["passing", "scrimmage", "kicking"]

/-- The per-cell extraction of `field_player_game_log` (lines 174-215):
look up the cell tagged `e.pfr`; a missing cell or blank text yields the
literal `0`; otherwise the four special rules for `team_pts`, `opp_pts`,
`snap_pct` and `start` apply before the generic coercion by declared type.
`none` models a raised exception (bad index or failed numeric parse). -/
def extractCell (row : Row) (e : MapEntry) : Option Value :=
  match findStat row e.pfr with
  | none => some (.vInt 0)
  | some cell =>
    if cell.text.length = 0 then some (.vInt 0)
    else if e.app = "team_pts" then do
      let seg ← (pySplit cell.text ' ')[1]?
      let t ← (pySplit seg '-')[0]?
      pure (.vStr t)
    else if e.app = "opp_pts" then do
      let seg ← (pySplit cell.text ' ')[1]?
      let t ← (pySplit seg '-')[1]?
      pure (.vStr t)
    else if e.app = "snap_pct" then
      (pyFloatS? (String.mk (removeChar '%' cell.text.data))).map
        (fun q => .vRat (q / 100))
    else if e.app = "start" then some (.vInt 1)
    else if e.data_type = "int" then (pyIntS? cell.text).map .vInt
    else if e.data_type = "float" then (pyFloatS? cell.text).map .vRat
    else some (.vStr cell.text)

/-- Extraction of one kept row: one `(outputField, value)` pair per mapping
entry, in mapping order. -/
def processRow (mapping : List MapEntry) (row : Row) : Option (List (String × Value)) :=
  listMapM (fun e => (extractCell row e).map (fun v => (e.app, v))) mapping

/-- The non-participation markers of `field_player_game_log` (line 164). -/
def ignoredText (x : String) : Bool :=
  x == "Inactive" || x == "Did Not Play" || x == "Injured Reserve"

/-- Reads the text of a row's final cell and tests it against the
non-participation markers; `none` models the `IndexError` raised on a row
with no cells (`elements[len(elements) - 1]`). -/
def lastCellFlag (row : Row) : Option Bool :=
  (row.getLast?).map (fun c => ignoredText c.text)

/-- First pass of `field_player_game_log` (lines 160-165): the ascending list
of indices of rows whose final cell marks a game not played. -/
def get_ignore_indices (rows : List Row) : Option (List Nat) := do
  let flags ← listMapM lastCellFlag rows
  pure ((List.range rows.length).filter (fun i => flags.getD i false))

/-- `field_player_game_log` (lines 110-217): compute the ignore list, then
extract every row whose index is not ignored, in document order.  The output
is the sequence of records (the source's dict of column lists, read off
row-wise). -/
def field_player_game_log (mapping : List MapEntry) (rows : List Row) :
    Option (List (List (String × Value))) := do
  let ig ← get_ignore_indices rows
  listMapM (fun i => processRow mapping (rows.getD i []))
    ((List.range rows.length).filter (fun i => !(ig.contains i)))

/-- An eligible-player output record (one DataFrame row of
`get_eligible_players`). -/
structure EPlayerRec where
  playerID : String
  name : String
  position : String
  age : Int
  season : Int
deriving DecidableEq, Repr

/-- `get_player_id` (lines 191-193 of `eligible_players.py`): concatenate
name, position and season, then strip every space (Python
`.replace(' ', '')`). -/
def get_player_id (name position : String) (season : Int) : String :=
  String.mk (removeChar ' ' (name ++ position ++ toString season).data)

/-- The per-row test of the `passing` branch of `get_ignore_list`
(lines 140-163 of `eligible_players.py`): a row is ignored when it has no
position cell, or when its position text — defaulted to `QB` when empty —
differs from `QB`. -/
def rowIgnoredEligible (row : Row) : Bool :=
  match findStat row "pos" with
  | none => true
  | some c =>
    let position := if c.text.length = 0 then "QB" else c.text
    position != "QB"

/-- `get_ignore_list` (lines 135-176): for `passing`, the indices of rows
failing the QB test; the `scrimmage` and `kicking` branches are `pass`
stubs and ignore nothing. -/
def get_ignore_list (stat_type : String) (rows : List Row) : List Nat :=
  if stat_type = "passing" then
    (List.range rows.length).filter (fun i => rowIgnoredEligible (rows.getD i []))
  else []

/-- The body of the main loop of `get_eligible_players` (lines 51-67): read
the name (stripping `*` and `+`), the position (defaulting blank text to
`QB`), the age, and assemble the record; `none` models a raised exception
(missing cell or unparseable age). -/
def processEligibleRow (season : Int) (row : Row) : Option EPlayerRec := do
  let nameCell ← findStat row "player"
  let name := String.mk (removeChar '+' (removeChar '*' nameCell.text.data))
  let posCell ← findStat row "pos"
  let position := if posCell.text.length = 0 then "QB" else posCell.text
  let ageCell ← findStat row "age"
  let age ← pyIntS? ageCell.text
  pure ⟨get_player_id name position season, name, position, age, season⟩

/-- Whether an outbound HTTP request goes through the rate-limited helper
`get_soup` or is issued directly via `requests.get`. -/
inductive FetchVia where
  | getSoup : FetchVia
  | direct : FetchVia
deriving DecidableEq, Repr

/-- Errors raised by the scraper, as distinguishable exception kinds. -/
inductive ScrapeErr where
  | invalidStat : ScrapeErr
  | invalidPosition : ScrapeErr
  | indexError : ScrapeErr
  | parseError : ScrapeErr
  | notFound : ScrapeErr
deriving DecidableEq, Repr

/-- The season-summary URL built by `get_eligible_players` (line 29). -/
def eligible_players_url (stat_type : String) (season : Int) : String :=
  "https://www.pro-football-reference.com/years/" ++ toString season ++ "/"
    ++ stat_type ++ ".htm"

/-- `get_eligible_players` (lines 23-117): validate the category, issue ONE
page request — directly via `requests.get`, not via `get_soup` — then build
one record per non-ignored row, in document order.  Besides the result it
returns the trace of outbound requests with the path each one took. -/
def get_eligible_players (stat_type : String) (season : Int) (rows : List Row) :
    Except ScrapeErr (List EPlayerRec) × List (FetchVia × String) :=
  if !(VALID_STATS.contains stat_type) then (.error .invalidStat, [])
  else
    let url := eligible_players_url stat_type season
    let ig := get_ignore_list stat_type rows
    match listMapM (fun i => processEligibleRow season (rows.getD i []))
        ((List.range rows.length).filter (fun i => !(ig.contains i))) with
    | none => (.error .parseError, [(.direct, url)])
    | some recs => (.ok recs, [(.direct, url)])

/-- One entry of the player-index page scanned by `get_href`: the paragraph
text and the link target of its embedded anchor. -/
structure PEntry where
  text : String
  href : String
deriving DecidableEq, Repr

/-- The per-entry test of `get_href` (lines 57-59): split the text on spaces,
split the last token on a hyphen as a `start-end` year range, and match when
season lies within it and the text contains both the name and the position
as substrings.  Evaluation order follows Python's short-circuiting `and`:
the second year is only read once `season >= start` holds; `none` models a
raised `ValueError`/`IndexError`. -/
def entryMatch? (player position : String) (season : Int) (p : PEntry) : Option Bool :=
  let toks := pySplit p.text ' '
  let lastTok := (toks.getLast?).getD ""
  let yrs := pySplit lastTok '-'
  do
    let s0 ← yrs[0]?
    let y0 ← pyIntS? s0
    if season < y0 then
      pure false
    else do
      let s1 ← yrs[1]?
      let y1 ← pyIntS? s1
      pure (decide (season ≤ y1) && pyContains p.text player && pyContains p.text position)

/-- `get_href` (lines 54-61): scan the index entries in document order and
return the first match's link target with `.htm` removed; raise when the
scan exhausts the list. -/
def get_href (player position : String) (season : Int) : List PEntry → Except ScrapeErr String
  | [] => .error .notFound
  | p :: ps =>
    match entryMatch? player position season p with
    | none => .error .parseError
    | some true => .ok (String.mk (removeHtm p.href.data))
    | some false => get_href player position season ps

/-- `get_player_list_url` (lines 65-69): split the name on spaces and take
the first character of the second token; `none` models the `IndexError`
raised when there is no second token or it is empty. -/
def get_player_list_url (player : String) : Option String := do
  let second ← (pySplit player ' ')[1]?
  let c ← second.data[0]?
  pure ("https://www.pro-football-reference.com/players/" ++ String.mk [c] ++ "/")

/-- `get_player_url` (lines 73-75). -/
def get_player_url (href : String) (season : Int) : String :=
  "https://www.pro-football-reference.com" ++ href ++ "/gamelog/"
    ++ toString season ++ "/"

/-- Python truthiness of a string: non-empty means true. -/
def pyTruthy (s : String) : Bool := s.length != 0

/-- The routing test of `get_player_game_log` (line 46), as Python evaluates
it: `position == 'QB' or 'RB' or 'FB' or 'WR' or 'TE'` is the equality test
or-ed with the truthiness of each string literal. -/
def routeCondition (position : String) : Bool :=
  (position == "QB") || pyTruthy "RB" || pyTruthy "FB" || pyTruthy "WR"
    || pyTruthy "TE"

/-- Result of `get_player_game_log`: a field-player log, or the value the
unimplemented kicker path returns. -/
inductive GLResult where
  | fieldLog : List (List (String × Value)) → GLResult
  | kickerStub : GLResult
deriving DecidableEq, Repr

/-- `kicker_game_log` (lines 223-224): an unimplemented stub (returns `0`). -/
def kicker_game_log (_rows : List Row) : GLResult := .kickerStub

/-- `get_player_game_log` (lines 26-49): validate the position, derive the
index-page URL, fetch the index page and the game-log page (both through
`get_soup`), resolve the link via `get_href`, and route on `routeCondition`.
The two pages are supplied as inputs standing for what the two fetches
return; the second component is the trace of outbound requests in order,
each tagged with the path it took. -/
def get_player_game_log (mapping : List MapEntry) (player position : String)
    (season : Int) (playerList : List PEntry) (gameLogRows : List Row) :
    Except ScrapeErr GLResult × List (FetchVia × String) :=
  if !(VALID_POSITIONS.contains position) then (.error .invalidPosition, [])
  else
    match get_player_list_url player with
    | none => (.error .indexError, [])
    | some url1 =>
      match get_href player position season playerList with
      | .error e => (.error e, [(.getSoup, url1)])
      | .ok href =>
        let url2 := get_player_url href season
        let trace := [((.getSoup : FetchVia), url1), ((.getSoup : FetchVia), url2)]
        if routeCondition position then
          match field_player_game_log mapping gameLogRows with
          | none => (.error .parseError, trace)
          | some recs => (.ok (.fieldLog recs), trace)
        else
          (.ok (kicker_game_log gameLogRows), trace)

/-- Whether `get_soup` (lines 92-103) pauses before this request: exactly
when the global counter has reached the ceiling of 20. -/
def get_soup_pauses (counter : Nat) : Bool := counter ≥ 20

/-- The effect of one `get_soup` call on the global `REQUEST_COUNTER`: reset
to 0 when it has reached 20, then increment after the request. -/
def get_soup_step (counter : Nat) : Nat :=
  let c := if counter ≥ 20 then 0 else counter
  c + 1

/-- Effect of one outbound request on the counter: only requests routed
through `get_soup` touch it; a direct `requests.get` leaves it unchanged. -/
def fetchStep : FetchVia → Nat → Nat
  | .getSoup, c => get_soup_step c
  | .direct, c => c

/-- Folds a request trace over the counter. -/
def runTrace (events : List (FetchVia × String)) (c : Nat) : Nat :=
  events.foldl (fun acc ev => fetchStep ev.1 acc) c

/-- The `start-end` active-years range of an index entry, as `get_href`
parses it: the last space-separated token of the entry text, split on a
hyphen, both parts read as integers. -/
def parsedYears (p : PEntry) : Option (Int × Int) := do
  let yrs := pySplit (((pySplit p.text ' ').getLast?).getD "") '-'
  let s0 ← yrs[0]?
  let y0 ← pyIntS? s0
  let s1 ← yrs[1]?
  let y1 ← pyIntS? s1
  pure (y0, y1)

/-- The matching condition as the specification states it: the season falls
within the inclusive active-years range, and the entry text contains both
the name and the position as substrings. -/
def specEntryMatch (player position : String) (season : Int) (p : PEntry) : Prop :=
  ∃ y0 y1, parsedYears p = some (y0, y1) ∧ y0 ≤ season ∧ season ≤ y1
    ∧ pyContains p.text player = true ∧ pyContains p.text position = true

end PFR

namespace PFR

/-! Helper lemmas shared by the claim theorems. -/

/-- `listMapM` over a mapped list composes the functions. -/
theorem listMapM_map (g : β → Option γ) (h : α → β) (l : List α) :
    listMapM g (l.map h) = listMapM (fun x => g (h x)) l := by
  induction l with
  | nil => rfl
  | cons a l ih => simp [listMapM, ih]

/-- A successful `listMapM` into `Bool` returns exactly the pointwise values. -/
theorem listMapM_eq_some_flags (f : α → Option Bool) (l : List α) (ys : List Bool)
    (h : listMapM f l = some ys) : ys = l.map (fun x => (f x).getD false) := by
  induction l generalizing ys with
  | nil => simp [listMapM] at h; simp [h.symm]
  | cons a l ih =>
    cases hfa : f a with
    | none => simp [listMapM, hfa] at h
    | some b =>
      cases hl : listMapM f l with
      | none => simp [listMapM, hfa, hl] at h
      | some bs =>
        simp [listMapM, hfa, hl] at h
        simp [← h, hfa, ih bs hl]

/-- Selecting the elements of `l` whose index passes an index-level test that
only looks at the element is the same as filtering `l` directly. -/
theorem range_filter_getD_map (l : List α) (p : α → Bool) (d : α) :
    ((List.range l.length).filter (fun i => p (l.getD i d))).map (fun i => l.getD i d)
      = l.filter p := by
  induction l with
  | nil => rfl
  | cons a l ih =>
    have h1 : List.range (a :: l).length = 0 :: (List.range l.length).map Nat.succ := by
      simpa using List.range_succ_eq_map l.length
    rw [h1]
    have hf : ((fun i => (a :: l)[i]?.getD d) ∘ Nat.succ) = fun i => l[i]?.getD d := by
      funext i
      simp
    have hp : ((fun i => p ((a :: l)[i]?.getD d)) ∘ Nat.succ) = fun i => p (l[i]?.getD d) := by
      funext i
      simp
    by_cases hpa : p a
    · simp only [List.filter_cons, List.getD_eq_getElem?_getD, List.filter_map,
        List.map_map, hf, hp, List.getElem?_cons_zero, Option.getD_some, hpa, if_true,
        List.map_cons]
      simpa [List.getD_eq_getElem?_getD] using ih
    · simp only [List.filter_cons, List.getD_eq_getElem?_getD, List.filter_map,
        List.map_map, hf, hp, List.getElem?_cons_zero, Option.getD_some, hpa,
        Bool.false_eq_true, if_false, List.map_cons]
      simpa [List.getD_eq_getElem?_getD] using ih

/-- Membership in a filtered range, read off as a `Bool`. -/
theorem contains_range_filter (n i : Nat) (q : Nat → Bool) (hi : i < n) :
    ((List.range n).filter q).contains i = q i := by
  have hmem : i ∈ (List.range n).filter q ↔ q i = true := by
    simp [List.mem_filter, List.mem_range, hi]
  cases hq : q i with
  | true => simp [List.contains, List.elem_iff, hmem, hq]
  | false =>
    simp only [List.contains]
    rw [Bool.eq_false_iff]
    intro hcon
    rw [List.elem_iff] at hcon
    rw [hmem] at hcon
    rw [hq] at hcon
    exact Bool.false_ne_true hcon

/-- `getD` through `map` at an in-range index. -/
theorem getD_map_lt (l : List α) (f : α → β) (i : Nat) (d : α) (d' : β) (hi : i < l.length) :
    (l.map f).getD i d' = f (l.getD i d) := by
  simp [List.getD_eq_getElem?_getD, List.getElem?_map, List.getElem?_eq_getElem hi]

/-- A successfully extracted record binds exactly the mapping's output
fields, in mapping order. -/
theorem processRow_fields (mapping : List MapEntry) (row : Row)
    (rec : List (String × Value)) (h : processRow mapping row = some rec) :
    rec.map Prod.fst = mapping.map MapEntry.app := by
  induction mapping generalizing rec with
  | nil => simp [processRow, listMapM] at h; simp [← h]
  | cons e m ih =>
    cases hce : extractCell row e with
    | none => simp [processRow, listMapM, hce] at h
    | some v =>
      cases hm : processRow m row with
      | none => simp [processRow, listMapM, hce] at h; simp [processRow] at hm; simp [hm] at h
      | some rest =>
        have hh : rec = (e.app, v) :: rest := by
          simp [processRow, listMapM, hce] at h
          simp [processRow] at hm
          simp [hm] at h
          exact h.symm
        simp [hh, ih rest hm]

/-- The raw per-entry test succeeds with `true` exactly when the
specification-level matching condition holds. -/
theorem entryMatch_iff_spec (player position : String) (season : Int) (p : PEntry) :
    entryMatch? player position season p = some true
      ↔ specEntryMatch player position season p := by
  unfold entryMatch? specEntryMatch parsedYears
  cases hs0 : (pySplit (((pySplit p.text ' ').getLast?).getD "") '-')[0]? with
  | none => simp [hs0]
  | some s0 =>
    cases hy0 : pyIntS? s0 with
    | none => simp [hs0, hy0]
    | some y0 =>
      cases hs1 : (pySplit (((pySplit p.text ' ').getLast?).getD "") '-')[1]? with
      | none =>
        by_cases hlt : season < y0
        · simp [hs0, hy0, hs1, hlt]
        · simp [hs0, hy0, hs1, hlt]
      | some s1 =>
        cases hy1 : pyIntS? s1 with
        | none =>
          by_cases hlt : season < y0
          · simp [hs0, hy0, hs1, hy1, hlt]
          · simp [hs0, hy0, hs1, hy1, hlt]
        | some y1 =>
          by_cases hlt : season < y0
          · simp [hs0, hy0, hs1, hy1, hlt]
          · simp [hs0, hy0, hs1, hy1, hlt, Bool.and_eq_true, decide_eq_true_eq]
            constructor
            · rintro ⟨⟨hle, hc1⟩, hc2⟩
              exact ⟨y0, y1, ⟨rfl, rfl⟩, by omega, hle, hc1, hc2⟩
            · rintro ⟨z0, z1, ⟨rfl, rfl⟩, hge, hle, hc1, hc2⟩
              exact ⟨⟨hle, hc1⟩, hc2⟩

/-- The recursive scan of `get_href` is the first-match search. -/
theorem get_href_first_match (player position : String) (season : Int)
    (entries : List PEntry)
    (hp : ∀ p ∈ entries, (entryMatch? player position season p).isSome) :
    get_href player position season entries =
      match entries.find? (fun p => entryMatch? player position season p == some true) with
      | some p => .ok (String.mk (removeHtm p.href.data))
      | none => .error .notFound := by
  induction entries with
  | nil => rfl
  | cons p ps ih =>
    have hep := hp p (by simp)
    cases he : entryMatch? player position season p with
    | none => rw [he] at hep; simp at hep
    | some b =>
      cases b with
      | true =>
        rw [List.find?_cons_of_pos _ (by simp [he])]
        simp [get_href, he]
      | false =>
        rw [List.find?_cons_of_neg _ (by simp [he])]
        rw [show get_href player position season (p :: ps)
              = get_href player position season ps from by simp [get_href, he]]
        exact ih (fun q hq => hp q (by simp [hq]))

/-- Unfolding equation of `removeHtm` on a list of length at least four. -/
theorem removeHtm_four (a b c d : Char) (rest : List Char) :
    removeHtm (a :: b :: c :: d :: rest)
      = if a == '.' && b == 'h' && c == 't' && d == 'm' then removeHtm rest
        else a :: removeHtm (b :: c :: d :: rest) := rfl

/-- On a string with no interior occurrence of `.htm`, removing every
occurrence from `base ++ ".htm"` strips exactly the trailing suffix. -/
theorem removeHtm_append (base : List Char)
    (h : containsSub ['.', 'h', 't', 'm'] base = false) :
    removeHtm (base ++ ['.', 'h', 't', 'm']) = base := by
  induction base with
  | nil => rfl
  | cons c rest ih =>
    have h' : List.isPrefixOf ['.', 'h', 't', 'm'] (c :: rest) = false
        ∧ containsSub ['.', 'h', 't', 'm'] rest = false := by
      have := h
      simp only [containsSub, Bool.or_eq_false_iff] at this
      exact this
    match rest with
    | [] =>
      rw [List.cons_append, List.nil_append, removeHtm_four]
      rw [if_neg (by simp)]
      rfl
    | [c1] =>
      rw [List.cons_append, List.cons_append, List.nil_append, removeHtm_four]
      rw [if_neg (by simp)]
      have : removeHtm (c1 :: '.' :: 'h' :: 't' :: 'm' :: []) = [c1] := by
        rw [removeHtm_four, if_neg (by simp)]
        rfl
      rw [this]
    | [c1, c2] =>
      rw [List.cons_append, List.cons_append, List.cons_append, List.nil_append,
        removeHtm_four]
      rw [if_neg (by simp)]
      have h2 : removeHtm (c1 :: c2 :: '.' :: 'h' :: 't' :: 'm' :: []) = [c1, c2] := by
        rw [removeHtm_four, if_neg (by simp)]
        have h3 : removeHtm (c2 :: '.' :: 'h' :: 't' :: 'm' :: []) = [c2] := by
          rw [removeHtm_four, if_neg (by simp)]
          rfl
        rw [h3]
      rw [h2]
    | c1 :: c2 :: c3 :: rest' =>
      simp only [List.cons_append]
      rw [removeHtm_four]
      by_cases hall : c = '.' ∧ c1 = 'h' ∧ c2 = 't' ∧ c3 = 'm'
      · obtain ⟨e0, e1, e2, e3⟩ := hall
        subst e0; subst e1; subst e2; subst e3
        simp [List.isPrefixOf] at h'
      · rw [if_neg (by
          intro hcond
          simp only [Bool.and_eq_true, beq_iff_eq] at hcond
          exact hall ⟨hcond.1.1.1, hcond.1.1.2, hcond.1.2, hcond.2⟩)]
        have hih := ih h'.2
        simp only [List.cons_append] at hih
        rw [hih]

end PFR

namespace PFR

/-! Claim theorems. -/

/-- C1: the claim says an identity with position `K` is routed to the
kicker-specific path (`kicker_game_log`).  In the code the routing condition
`position == 'QB' or 'RB' or 'FB' or 'WR' or 'TE'` is truthy for EVERY
position (each string literal is non-empty), so even `K` takes the generic
field-player path: a run for a kicker returns a field-player log, never the
kicker stub — contradicting the code's own docstring ("we will route ...
Ks to kicker"). -/
theorem c1_kicker_identity_routed_to_field_player_path :
    (∀ position : String, routeCondition position = true)
    ∧ (get_player_game_log [] "John Smith" "K" 2022
        [⟨"John Smith K 2020-2023", "/players/S/SmitJo00.htm"⟩] []).1
        = .ok (.fieldLog [])
    ∧ GLResult.fieldLog [] ≠ kicker_game_log [] := by
  refine ⟨fun position => ?_, by rfl, by decide⟩
  have h1 : pyTruthy "RB" = true := rfl
  simp [routeCondition, h1]

/-- C2: the claim says every record returned by `get_eligible_players` has a
position in the category's eligible set.  The code's `get_ignore_list` only
filters for `passing`; the `scrimmage` and `kicking` branches are `pass`
stubs (marked `@TODO`), so a QB row survives a `scrimmage` query even though
`QB` is not in `scrimmage`'s eligible set. -/
theorem c2_scrimmage_and_kicking_rows_not_filtered :
    (∀ rows : List Row,
      get_ignore_list "scrimmage" rows = [] ∧ get_ignore_list "kicking" rows = [])
    ∧ get_eligible_players "scrimmage" 2022
        [[⟨"player", "Tom Brady"⟩, ⟨"pos", "QB"⟩, ⟨"age", "45"⟩]]
        = (.ok [⟨"TomBradyQB2022", "Tom Brady", "QB", 45, 2022⟩],
           [(.direct, "https://www.pro-football-reference.com/years/2022/scrimmage.htm")])
    ∧ ["RB", "FB", "WR", "TE"].contains "QB" = false := by
  refine ⟨fun rows => ⟨?_, ?_⟩, by rfl, by decide⟩
  · rw [get_ignore_list, if_neg (by decide)]
  · rw [get_ignore_list, if_neg (by decide)]

/-- C3 counterexample: `get_eligible_players` issues its page request
directly through `requests.get`, not through `get_soup`, so that fetch
leaves the request counter unchanged — after it the counter is 0, not in
the claimed range 1..20. -/
theorem c3_eligible_players_fetch_bypasses_get_soup :
    (get_eligible_players "passing" 2022
        [[⟨"player", "Tom Brady"⟩, ⟨"pos", "QB"⟩, ⟨"age", "45"⟩]]).2
      = [(FetchVia.direct, "https://www.pro-football-reference.com/years/2022/passing.htm")]
    ∧ runTrace
        [(FetchVia.direct, "https://www.pro-football-reference.com/years/2022/passing.htm")] 0 = 0
    ∧ ¬(1 ≤ runTrace
        [(FetchVia.direct, "https://www.pro-football-reference.com/years/2022/passing.htm")] 0) := by
  refine ⟨by rfl, by decide, by decide⟩

/-- C3 (amended): the counter invariant holds for the requests that go
through `get_soup` — one increment per call, pause-and-reset exactly when
the counter has reached 20, counter afterwards in 1..20 — and all of
`get_player_game_log`'s requests do go through `get_soup`; but
`get_eligible_players` issues its one request directly, bypassing
`get_soup` and leaving the counter unchanged. -/
theorem c3_rate_limit_invariant_scoped_to_get_soup (c : Nat) (hc : c ≤ 20)
    (stat : String) (season : Int) (rows : List Row) (mapping : List MapEntry)
    (player position : String) (pl : List PEntry) (gl : List Row) :
    (1 ≤ get_soup_step c ∧ get_soup_step c ≤ 20
      ∧ (get_soup_pauses c = true ↔ c = 20))
    ∧ (get_player_game_log mapping player position season pl gl).2.all
        (fun ev => ev.1 == FetchVia.getSoup) = true
    ∧ runTrace (get_eligible_players stat season rows).2 c = c
    ∧ (get_eligible_players stat season rows).2.all
        (fun ev => ev.1 == FetchVia.direct) = true := by
  have hstep : ∀ n : Nat, get_soup_step n = if 20 ≤ n then 1 else n + 1 := by
    intro n
    unfold get_soup_step
    split <;> rfl
  refine ⟨⟨?_, ?_, ?_⟩, ?_, ?_, ?_⟩
  · rw [hstep]
    split <;> omega
  · rw [hstep]
    split <;> omega
  · unfold get_soup_pauses
    constructor
    · intro h
      have := of_decide_eq_true h
      omega
    · intro h
      subst h
      decide
  · unfold get_player_game_log
    split
    · rfl
    · split
      · rfl
      · split
        · rfl
        · split
          · split <;> rfl
          · rfl
  · unfold get_eligible_players
    split
    · rfl
    · dsimp only
      split <;> simp [runTrace, fetchStep]
  · unfold get_eligible_players
    split
    · rfl
    · dsimp only
      split <;> rfl

/-- C3 witness: the amended theorem applied at counter 20. -/
theorem c3_rate_limit_invariant_scoped_to_get_soup_witness :
    1 ≤ get_soup_step 20 ∧ get_soup_step 20 ≤ 20
      ∧ (get_soup_pauses 20 = true ↔ 20 = 20) :=
  (c3_rate_limit_invariant_scoped_to_get_soup 20 (by decide) "passing" 2022 [] []
    "Tom Brady" "QB" [] []).1

/-- C4 counterexample: a missing (or blank) cell mapped to a string-typed
field yields the Python integer `0` in the record, not the empty string the
claim requires. -/
theorem c4_blank_string_field_gets_int_zero :
    extractCell [] ⟨"game_date", "date", "string"⟩ = some (Value.vInt 0)
    ∧ extractCell [⟨"game_date", ""⟩] ⟨"game_date", "date", "string"⟩ = some (Value.vInt 0)
    ∧ Value.vInt 0 ≠ Value.vStr "" := by
  refine ⟨by rfl, by rfl, by decide⟩

/-- C4 (amended): the code tests blankness as EXACTLY-EMPTY text
(`len(cell_data_text) == 0`) and never trims.  For every mapping entry
whose source cell is absent or has exactly-empty text, the record binds the
declared output field to the literal integer `0` regardless of the declared
type (so `0` for int as claimed, but also the integer `0` — not `0.0` or
`""` — for float and string fields).  A whitespace-only cell — blank only
after trimming — is NOT defaulted: a string-typed field receives the
whitespace text unchanged and an int- or float-typed field raises.  Every
declared output field is present in every successfully extracted record,
in mapping order, and no value is ever missing or null. -/
theorem c4_missing_or_truly_empty_cell_yields_literal_zero (row : Row) (e : MapEntry)
    (h : findStat row e.pfr = none
      ∨ ∃ cell, findStat row e.pfr = some cell ∧ cell.text.length = 0)
    (mapping : List MapEntry) (rec : List (String × Value))
    (hrec : processRow mapping row = some rec) :
    extractCell row e = some (Value.vInt 0)
    ∧ rec.map Prod.fst = mapping.map MapEntry.app
    ∧ extractCell [⟨"game_date", " "⟩] ⟨"game_date", "date", "string"⟩
        = some (Value.vStr " ")
    ∧ extractCell [⟨"pass_att", " "⟩] ⟨"pass_att", "att", "int"⟩ = none
    ∧ extractCell [⟨"off_pct", " "⟩] ⟨"off_pct", "pct", "float"⟩ = none := by
  refine ⟨?_, processRow_fields mapping row rec hrec, by rfl, by rfl, by rfl⟩
  rcases h with h | ⟨cell, hcell, hz⟩
  · simp [extractCell, h]
  · simp [extractCell, hcell, hz]

/-- C4 witness: the amended theorem applied to an absent int cell and the
empty mapping, with the whitespace-only cells evaluated concretely. -/
theorem c4_missing_or_truly_empty_cell_yields_literal_zero_witness :
    extractCell [] ⟨"pass_att", "att", "int"⟩ = some (Value.vInt 0)
    ∧ ([] : List (String × Value)).map Prod.fst = ([] : List MapEntry).map MapEntry.app
    ∧ extractCell [⟨"game_date", " "⟩] ⟨"game_date", "date", "string"⟩
        = some (Value.vStr " ")
    ∧ extractCell [⟨"pass_att", " "⟩] ⟨"pass_att", "att", "int"⟩ = none
    ∧ extractCell [⟨"off_pct", " "⟩] ⟨"off_pct", "pct", "float"⟩ = none :=
  c4_missing_or_truly_empty_cell_yields_literal_zero [] ⟨"pass_att", "att", "int"⟩
    (Or.inl rfl) [] [] rfl

/-- C5 counterexample: the `team_pts`/`opp_pts` rules append the split
segments without an integer cast, so `"W 24-17"` decodes to the strings
`"24"` and `"17"`, not to the integers 24 and 17 the claim states. -/
theorem c5_team_pts_decodes_to_string_not_int :
    extractCell [⟨"game_result", "W 24-17"⟩] ⟨"game_result", "team_pts", "int"⟩
      = some (Value.vStr "24")
    ∧ extractCell [⟨"game_result", "W 24-17"⟩] ⟨"game_result", "opp_pts", "int"⟩
      = some (Value.vStr "17")
    ∧ Value.vStr "24" ≠ Value.vInt 24 := by
  refine ⟨by rfl, by rfl, by decide⟩

/-- C5 (amended): `snap_pct` of raw text `"62%"` decodes to the number
`0.62` (strip `%`, parse, divide by 100); `team_pts` and `opp_pts` from raw
text `"W 24-17"` decode to the STRINGS `"24"` and `"17"` (split on space
then hyphen, no integer cast); a non-empty `start` cell of any content
decodes to the integer `1`. -/
theorem c5_special_field_decoding_rules (dt tag s : String) (hs : s.length ≠ 0) :
    extractCell [⟨tag, "62%"⟩] ⟨tag, "snap_pct", dt⟩ = some (Value.vRat (62 / 100))
    ∧ extractCell [⟨tag, "W 24-17"⟩] ⟨tag, "team_pts", dt⟩ = some (Value.vStr "24")
    ∧ extractCell [⟨tag, "W 24-17"⟩] ⟨tag, "opp_pts", dt⟩ = some (Value.vStr "17")
    ∧ extractCell [⟨tag, s⟩] ⟨tag, "start", dt⟩ = some (Value.vInt 1) := by
  have hfind : ∀ t : String, findStat [(⟨tag, t⟩ : Cell)] tag = some ⟨tag, t⟩ := by
    intro t
    simp [findStat, List.find?]
  refine ⟨?_, ?_, ?_, ?_⟩
  · rw [extractCell.eq_def]
    rw [hfind]
    dsimp only
    rw [if_neg (by decide : ¬("62%".length = 0)),
      if_neg (by decide : ¬("snap_pct" = "team_pts")),
      if_neg (by decide : ¬("snap_pct" = "opp_pts")),
      if_pos (rfl : "snap_pct" = "snap_pct")]
    have h62 : pyFloatS? (String.mk (removeChar '%' ("62%".data)))
        = some (((62 : Nat) : Rat) + ((0 : Nat) : Rat) / (10 : Rat) ^ (0 : Nat)) := rfl
    rw [h62]
    norm_num
  · rw [extractCell.eq_def]
    rw [hfind]
    dsimp only
    rw [if_neg (by decide : ¬("W 24-17".length = 0)),
      if_pos (rfl : "team_pts" = "team_pts")]
    rfl
  · rw [extractCell.eq_def]
    rw [hfind]
    dsimp only
    rw [if_neg (by decide : ¬("W 24-17".length = 0)),
      if_neg (by decide : ¬("opp_pts" = "team_pts")),
      if_pos (rfl : "opp_pts" = "opp_pts")]
    rfl
  · rw [extractCell.eq_def]
    rw [hfind]
    dsimp only
    rw [if_neg hs,
      if_neg (by decide : ¬("start" = "team_pts")),
      if_neg (by decide : ¬("start" = "opp_pts")),
      if_neg (by decide : ¬("start" = "snap_pct")),
      if_pos (rfl : "start" = "start")]

/-- C5 witness: the amended theorem applied to concrete cells, with the
`start` cell holding `"*"`. -/
theorem c5_special_field_decoding_rules_witness :
    extractCell [⟨"gs", "62%"⟩] ⟨"gs", "snap_pct", "int"⟩ = some (Value.vRat (62 / 100))
    ∧ extractCell [⟨"gs", "W 24-17"⟩] ⟨"gs", "team_pts", "int"⟩ = some (Value.vStr "24")
    ∧ extractCell [⟨"gs", "W 24-17"⟩] ⟨"gs", "opp_pts", "int"⟩ = some (Value.vStr "17")
    ∧ extractCell [⟨"gs", "*"⟩] ⟨"gs", "start", "int"⟩ = some (Value.vInt 1) :=
  c5_special_field_decoding_rules "int" "gs" "*" (by decide)

end PFR

namespace PFR

/-- C6 counterexample: a row whose position cell text is empty gets the
FIXED default `QB` — the output is `QB` for any player identity, including
one (a kicker) whose profile would declare a different position — and the
whole extraction issues exactly one page request, so no profile page is
ever followed. -/
theorem c6_empty_position_gets_fixed_default_qb :
    get_eligible_players "passing" 2022
        [[⟨"player", "Justin Tucker"⟩, ⟨"pos", ""⟩, ⟨"age", "33"⟩]]
      = (.ok [⟨"JustinTuckerQB2022", "Justin Tucker", "QB", 33, 2022⟩],
         [(FetchVia.direct, "https://www.pro-football-reference.com/years/2022/passing.htm")])
    ∧ (get_eligible_players "passing" 2022
        [[⟨"player", "Davante Adams"⟩, ⟨"pos", ""⟩, ⟨"age", "30"⟩]]).1
      = .ok [⟨"DavanteAdamsQB2022", "Davante Adams", "QB", 30, 2022⟩]
    ∧ (get_eligible_players "passing" 2022
        [[⟨"player", "Justin Tucker"⟩, ⟨"pos", ""⟩, ⟨"age", "33"⟩]]).2.length = 1 := by
  refine ⟨by rfl, by rfl, by rfl⟩

/-- C6 (amended): a season-summary row whose position cell is present but
has empty text is resolved to the fixed default `QB` (the code's comment
cites 2022 Baker Mayfield); no player-profile page is consulted — the whole
extraction issues at most one request. -/
theorem c6_empty_position_default_no_profile_fetch (season : Int) (row : Row)
    (rec : EPlayerRec) (h : processEligibleRow season row = some rec)
    (cell : Cell) (hc : findStat row "pos" = some cell) (hz : cell.text.length = 0)
    (stat : String) (rows : List Row) :
    rec.position = "QB"
    ∧ (get_eligible_players stat season rows).2.length ≤ 1 := by
  constructor
  · cases hn : findStat row "player" with
    | none => rw [processEligibleRow, hn] at h; simp at h
    | some nameCell =>
      cases ha : findStat row "age" with
      | none =>
        rw [processEligibleRow, hn, hc, ha] at h
        simp at h
      | some ageCell =>
        cases hage : pyIntS? ageCell.text with
        | none =>
          rw [processEligibleRow, hn, hc, ha] at h
          simp [hage] at h
        | some age =>
          rw [processEligibleRow, hn, hc, ha] at h
          simp [hage, hz] at h
          rw [← h]
  · unfold get_eligible_players
    split
    · simp
    · dsimp only
      split <;> simp

/-- C6 witness: the amended theorem applied to a concrete empty-position
row. -/
theorem c6_empty_position_default_no_profile_fetch_witness :
    (⟨"JustinTuckerQB2022", "Justin Tucker", "QB", 33, 2022⟩ : EPlayerRec).position = "QB"
    ∧ (get_eligible_players "passing" 2022
        [[⟨"player", "Justin Tucker"⟩, ⟨"pos", ""⟩, ⟨"age", "33"⟩]]).2.length ≤ 1 :=
  c6_empty_position_default_no_profile_fetch 2022
    [⟨"player", "Justin Tucker"⟩, ⟨"pos", ""⟩, ⟨"age", "33"⟩]
    ⟨"JustinTuckerQB2022", "Justin Tucker", "QB", 33, 2022⟩ rfl
    ⟨"pos", ""⟩ rfl rfl "passing"
    [[⟨"player", "Justin Tucker"⟩, ⟨"pos", ""⟩, ⟨"age", "33"⟩]]

/-- C7: when every index entry parses (its last space-separated token is a
`start-end` year range), `get_href` returns the first entry in document
order that matches — season within `[start, end]` inclusive AND the entry
text contains the name as a substring AND the position as a substring
(exactly `specEntryMatch`) — as its link target with the trailing `.htm`
suffix stripped (the code removes every occurrence of `.htm`; on a link
with no interior occurrence this is exactly the trailing suffix), and
fails with the not-found error when no entry matches. -/
theorem c7_get_href_first_match_contract (player position : String) (season : Int)
    (entries : List PEntry)
    (hp : ∀ p ∈ entries, (entryMatch? player position season p).isSome) :
    (∀ p : PEntry, entryMatch? player position season p = some true
        ↔ specEntryMatch player position season p)
    ∧ get_href player position season entries =
        (match entries.find? (fun p => entryMatch? player position season p == some true) with
         | some p => .ok (String.mk (removeHtm p.href.data))
         | none => .error .notFound)
    ∧ (∀ base : List Char, containsSub ['.', 'h', 't', 'm'] base = false →
        removeHtm (base ++ ['.', 'h', 't', 'm']) = base) :=
  ⟨fun p => entryMatch_iff_spec player position season p,
   get_href_first_match player position season entries hp,
   fun base hb => removeHtm_append base hb⟩

/-- C7 witness: on a concrete index page the second entry is the first
match and its link is returned with the trailing `.htm` stripped. -/
theorem c7_get_href_first_match_contract_witness :
    get_href "John Smith" "K" 2022
      [⟨"Joe Smith QB 2010-2015", "/players/S/SmitJo00.htm"⟩,
       ⟨"John Smith K 2020-2023", "/players/S/SmitJo01.htm"⟩]
      = .ok "/players/S/SmitJo01" := by
  have h := (c7_get_href_first_match_contract "John Smith" "K" 2022
    [⟨"Joe Smith QB 2010-2015", "/players/S/SmitJo00.htm"⟩,
     ⟨"John Smith K 2020-2023", "/players/S/SmitJo01.htm"⟩] (by decide)).2.1
  rw [h]
  rfl

/-- C8: when `field_player_game_log` succeeds, its output is exactly the
per-row extraction of the rows whose final cell does NOT read `Inactive`,
`Did Not Play` or `Injured Reserve`, in original document order: excluded
rows produce no record at all (their cells are never mapped), and the
remaining rows' records appear in order. -/
theorem c8_non_participation_rows_excluded_order_preserved
    (mapping : List MapEntry) (rows : List Row) (recs : List (List (String × Value)))
    (h : field_player_game_log mapping rows = some recs) :
    listMapM (processRow mapping)
        (rows.filter (fun r => !((lastCellFlag r).getD false))) = some recs := by
  unfold field_player_game_log get_ignore_indices at h
  cases hfl : listMapM lastCellFlag rows with
  | none => rw [hfl] at h; simp at h
  | some flags =>
    rw [hfl] at h
    simp only [Option.bind_eq_bind, Option.pure_def, Option.some_bind] at h
    have hflags : flags = rows.map (fun r => (lastCellFlag r).getD false) :=
      listMapM_eq_some_flags _ _ _ hfl
    have hpred : ∀ i ∈ List.range rows.length,
        (!(((List.range rows.length).filter (fun j => flags.getD j false)).contains i))
          = (!(((lastCellFlag (rows.getD i [])).getD false))) := by
      intro i hi
      rw [List.mem_range] at hi
      rw [contains_range_filter _ _ _ hi]
      rw [hflags, getD_map_lt _ _ _ [] _ hi]
    rw [List.filter_congr hpred] at h
    have hkept := range_filter_getD_map rows (fun r => !((lastCellFlag r).getD false)) []
    rw [← hkept, listMapM_map]
    exact h

/-- C8 witness: a three-row table with one `Inactive` row yields exactly the
two active rows' records in order. -/
theorem c8_non_participation_rows_excluded_order_preserved_witness :
    listMapM (processRow [⟨"game_date", "date", "string"⟩])
        (([[⟨"game_date", "2022-09-08"⟩, ⟨"reason", "ok"⟩],
           [⟨"game_date", "2022-09-11"⟩, ⟨"reason", "Inactive"⟩],
           [⟨"game_date", "2022-09-18"⟩, ⟨"stat", "7"⟩]] : List Row).filter
          (fun r => !((lastCellFlag r).getD false)))
      = some [[("date", Value.vStr "2022-09-08")], [("date", Value.vStr "2022-09-18")]] :=
  c8_non_participation_rows_excluded_order_preserved [⟨"game_date", "date", "string"⟩]
    [[⟨"game_date", "2022-09-08"⟩, ⟨"reason", "ok"⟩],
     [⟨"game_date", "2022-09-11"⟩, ⟨"reason", "Inactive"⟩],
     [⟨"game_date", "2022-09-18"⟩, ⟨"stat", "7"⟩]]
    [[("date", Value.vStr "2022-09-08")], [("date", Value.vStr "2022-09-18")]] (by rfl)

/-- C9 counterexample: the key strips spaces from the concatenation of name,
position and season, so `("Baker Mayfield", "QB", 2022)` and
`("BakerMayfield", "QB", 2022)` produce the SAME key — the claim says they
must not collide. -/
theorem c9_whitespace_normalized_names_collide :
    get_player_id "Baker Mayfield" "QB" 2022 = get_player_id "BakerMayfield" "QB" 2022 := by
  rfl

/-- C9 (amended): key derivation is deterministic (a pure function of name,
position and season, equal to name-minus-spaces ++ position ++ season), but
it is NOT injective over whitespace normalization: stripping spaces from
the name never changes the key, so whitespace-differing names collide. -/
theorem c9_player_id_deterministic_space_stripping :
    (∀ (n p : String) (s : Int),
      get_player_id n p s = get_player_id (String.mk (removeChar ' ' n.data)) p s)
    ∧ get_player_id "Baker Mayfield" "QB" 2022 = "BakerMayfieldQB2022" := by
  constructor
  · intro n p s
    unfold get_player_id
    have hd : ∀ a b : String, (a ++ b).data = a.data ++ b.data := fun a b => rfl
    have hmk : ∀ l : List Char, (String.mk l).data = l := fun l => rfl
    congr 1
    rw [hd, hd, hd, hd, hmk]
    unfold removeChar
    rw [List.filter_append, List.filter_append, List.filter_append, List.filter_append]
    rw [List.filter_filter]
    simp
  · rfl

/-- C10: if the player string has fewer than two space-separated tokens,
`get_player_game_log` (with a valid position) fails with the out-of-range
indexing error raised inside `get_player_list_url`, before any page
request is issued (the request trace is empty); and URL derivation fails
exactly when the second token is missing or empty — the operation is only
total when the name has a space followed by a non-empty last name. -/
theorem c10_single_token_name_index_error_before_fetch (mapping : List MapEntry)
    (player position : String) (season : Int) (pl : List PEntry) (gl : List Row)
    (hpos : VALID_POSITIONS.contains position = true)
    (hname : (pySplit player ' ').length < 2) :
    get_player_game_log mapping player position season pl gl
      = (.error .indexError, [])
    ∧ (∀ q : String,
        get_player_list_url q = none ↔ ((pySplit q ' ')[1]?).getD "" = "") := by
  constructor
  · have hurl : get_player_list_url player = none := by
      unfold get_player_list_url
      have h1 : (pySplit player ' ')[1]? = none :=
        List.getElem?_eq_none (by omega)
      rw [h1]
      rfl
    unfold get_player_game_log
    rw [hpos]
    simp only [Bool.not_true, Bool.false_eq_true, if_false]
    rw [hurl]
  · intro q
    unfold get_player_list_url
    cases h1 : (pySplit q ' ')[1]? with
    | none => simp
    | some second =>
      simp only [Option.bind_eq_bind, Option.pure_def, Option.some_bind, Option.getD_some]
      cases hd : second.data with
      | nil =>
        have h2 : second = "" := by
          cases second with
          | mk d =>
            cases hd
            rfl
        simp [h2]
      | cons a l =>
        have h2 : second ≠ "" := by
          intro he
          rw [he] at hd
          simp at hd
        simp [h2]

/-- C10 witness: a single-token name fails with the indexing error and an
empty request trace. -/
theorem c10_single_token_name_index_error_before_fetch_witness :
    get_player_game_log [] "Cher" "QB" 2022 [] [] = (.error .indexError, []) :=
  (c10_single_token_name_index_error_before_fetch [] "Cher" "QB" 2022 [] []
    (by decide) (by decide)).1

end PFR
